import Mathlib

/-!
# Verification of `utils.py` (ml4code preprocessing utilities)

Shallow embedding of the three functions of `src/utils.py`:

* `create_vocab` — builds a bidirectional token/id vocabulary from a
  tokenized corpus.  Python dictionaries are modelled as association
  lists in insertion order, looked up with `List.lookup`; Python's
  `set`/`sorted` combination is modelled as `List.dedup` followed by a
  sort with the lexicographic order on `String`.
* `get_token_stream` — filters a raw token stream.  The external CPython
  `ast.parse` and `tokenize.tokenize` machinery is not part of the
  repository, so the function is parametrised over it: an abstract
  parser `String → Except PyError Unit` and an abstract tokenizer
  `String → List Token`.
* `get_code` — projects one field out of an externally loaded dataset.
  The external `datasets.load_dataset` collaborator is likewise a
  parameter.
-/

namespace Ml4Code

/-- Python exceptions that `utils.py` can raise or propagate. -/
inductive PyError where
  | assertionError (msg : String)
  | syntaxError (msg : String)
  | keyError (key : String)
  | datasetsError (msg : String)
  deriving DecidableEq, Repr

/-! ## Vocabulary builder (`create_vocab`) -/

/-- `sum(tokenized_corpus, start=[])`: left fold of list concatenation. -/
def concatAll (tokenized_corpus : List (List String)) : List String :=
  tokenized_corpus.foldl (fun acc d => acc ++ d) []

/-- `sorted(set(xs))`: the distinct elements in ascending lexicographic
order of the token text. -/
def sortedUnique (xs : List String) : List String :=
  List.insertionSort (· ≤ ·) xs.dedup

/--
`create_vocab(tokenized_corpus)` from `src/utils.py`:

```
unique_words = set(sum(tokenized_corpus, start=[]))
token2id = {}
for token in sorted(unique_words):
    token2id[token] = len(token2id)
id2token = {v: k for k, v in token2id.items()}
return token2id, id2token
```

Dicts are association lists in insertion order; every key inserted in
the loop is fresh (the loop ranges over a deduplicated list), so each
iteration appends one binding, and the value-for-key comprehension
building `id2token` swaps each pair in order.
-/
def create_vocab (tokenized_corpus : List (List String)) :
    List (String × Nat) × List (Nat × String) :=
  let unique_words := (concatAll tokenized_corpus).dedup
  let token2id :=
    (List.insertionSort (· ≤ ·) unique_words).foldl
      (fun acc token => acc ++ [(token, acc.length)]) []
  let id2token := token2id.map (fun p => (p.2, p.1))
  (token2id, id2token)

/-- Helper: the association list produced by the `for` loop, with ids
starting at `n`. -/
def assignIds (n : Nat) : List String → List (String × Nat)
  | [] => []
  | t :: ts => (t, n) :: assignIds (n + 1) ts

theorem foldl_assign (l : List String) (acc : List (String × Nat)) :
    l.foldl (fun acc token => acc ++ [(token, acc.length)]) acc
      = acc ++ assignIds acc.length l := by
  induction l generalizing acc with
  | nil => simp [assignIds]
  | cons t ts ih =>
    simp only [List.foldl_cons, assignIds]
    rw [ih]
    simp

theorem assignIds_map_fst (n : Nat) (l : List String) :
    (assignIds n l).map Prod.fst = l := by
  induction l generalizing n with
  | nil => rfl
  | cons t ts ih => simp [assignIds, ih]

theorem assignIds_map_snd (n : Nat) (l : List String) :
    (assignIds n l).map Prod.snd = List.range' n l.length := by
  induction l generalizing n with
  | nil => rfl
  | cons t ts ih => simp [assignIds, ih, List.range']

theorem assignIds_lookup_ge (n : Nat) (l : List String) (t : String) (i : Nat)
    (h : (assignIds n l).lookup t = some i) : n ≤ i := by
  induction l generalizing n with
  | nil => simp [assignIds, List.lookup] at h
  | cons a ts ih =>
    simp only [assignIds, List.lookup] at h
    by_cases hta : t = a
    · simp [hta] at h
      omega
    · have : (t == a) = false := beq_false_of_ne hta
      rw [this] at h
      have := ih (n + 1) h
      omega

theorem assignIds_lookup_of_mem (n : Nat) (l : List String) (hl : l.Nodup)
    (t : String) (ht : t ∈ l) :
    ∃ i, (assignIds n l).lookup t = some i ∧
      ((assignIds n l).map (fun p => (p.2, p.1))).lookup i = some t := by
  induction l generalizing n with
  | nil => cases ht
  | cons a ts ih =>
    rcases List.mem_cons.mp ht with heq | hmem
    · subst heq
      exact ⟨n, by simp [assignIds, List.lookup], by simp [assignIds, List.lookup]⟩
    · have hne : t ≠ a := fun h => (List.nodup_cons.mp hl).1 (h ▸ hmem)
      obtain ⟨i, hlk, hrl⟩ := ih (n + 1) (List.nodup_cons.mp hl).2 hmem
      have hge : n + 1 ≤ i := assignIds_lookup_ge _ _ _ _ hlk
      refine ⟨i, ?_, ?_⟩
      · simp only [assignIds, List.lookup, beq_false_of_ne hne]
        exact hlk
      · have hin : (i == n) = false := beq_eq_false_iff_ne.mpr (by omega)
        simp only [assignIds, List.map_cons, List.lookup, hin]
        exact hrl

theorem sortedUnique_sorted_lt (xs : List String) :
    (sortedUnique xs).Sorted (· < ·) := by
  have hs : (sortedUnique xs).Sorted (· ≤ ·) :=
    List.sorted_insertionSort (· ≤ ·) xs.dedup
  have hn : (sortedUnique xs).Nodup :=
    (List.perm_insertionSort (· ≤ ·) xs.dedup).nodup_iff.mpr (List.nodup_dedup xs)
  exact List.Sorted.lt_of_le hs hn

theorem sortedUnique_nodup (xs : List String) : (sortedUnique xs).Nodup :=
  (List.perm_insertionSort (· ≤ ·) xs.dedup).nodup_iff.mpr (List.nodup_dedup xs)

theorem mem_sortedUnique (xs : List String) (t : String) :
    t ∈ sortedUnique xs ↔ t ∈ xs := by
  unfold sortedUnique
  rw [List.mem_insertionSort, List.mem_dedup]

theorem sortedUnique_length (xs : List String) :
    (sortedUnique xs).length = xs.dedup.length :=
  (List.perm_insertionSort (· ≤ ·) xs.dedup).length_eq

/-- The forward mapping is exactly `assignIds 0` over the sorted
distinct tokens. -/
theorem create_vocab_fst (tokenized_corpus : List (List String)) :
    (create_vocab tokenized_corpus).1
      = assignIds 0 (sortedUnique (concatAll tokenized_corpus)) := by
  simp only [create_vocab, sortedUnique]
  rw [foldl_assign]
  rfl

theorem create_vocab_snd (tokenized_corpus : List (List String)) :
    (create_vocab tokenized_corpus).2
      = (create_vocab tokenized_corpus).1.map (fun p => (p.2, p.1)) := by
  unfold create_vocab
  rfl

/-- `create_vocab` in closed form. -/
theorem create_vocab_eq (tokenized_corpus : List (List String)) :
    create_vocab tokenized_corpus
      = (assignIds 0 (sortedUnique (concatAll tokenized_corpus)),
         (assignIds 0 (sortedUnique (concatAll tokenized_corpus))).map
           (fun p => (p.2, p.1))) := by
  have h1 := create_vocab_fst tokenized_corpus
  have h2 := create_vocab_snd tokenized_corpus
  rw [h1] at h2
  exact Prod.ext h1 h2

/-- **C1**: `create_vocab` returns `(token2id, id2token)` where the keys of
`token2id` are exactly the distinct tokens of the collection listed in
strictly ascending lexicographic order, the ids are the contiguous range
`[0, number of distinct tokens)` in that order (so `token2id` is a
bijection onto that range), and `id2token` inverts `token2id`:
`id2token.lookup (token2id.lookup t) = t` for every token `t` of the
collection. -/
theorem create_vocab_correct (corpus : List (List String)) :
    ((create_vocab corpus).1.map Prod.fst).Sorted (· < ·) ∧
    (∀ t, t ∈ (create_vocab corpus).1.map Prod.fst ↔ t ∈ concatAll corpus) ∧
    (create_vocab corpus).1.map Prod.snd
        = List.range (concatAll corpus).dedup.length ∧
    (∀ t, t ∈ concatAll corpus →
      ∃ i, (create_vocab corpus).1.lookup t = some i ∧
        (create_vocab corpus).2.lookup i = some t) := by
  have hfst := create_vocab_fst corpus
  have hsnd := create_vocab_snd corpus
  have hkeys : (create_vocab corpus).1.map Prod.fst
      = sortedUnique (concatAll corpus) := by
    rw [hfst, assignIds_map_fst]
  refine ⟨?_, ?_, ?_, ?_⟩
  · rw [hkeys]
    exact sortedUnique_sorted_lt _
  · intro t
    rw [hkeys, mem_sortedUnique]
  · rw [hfst, assignIds_map_snd, sortedUnique_length, List.range_eq_range']
  · intro t ht
    have htm : t ∈ sortedUnique (concatAll corpus) :=
      (mem_sortedUnique _ t).mpr ht
    obtain ⟨i, h1, h2⟩ :=
      assignIds_lookup_of_mem 0 _ (sortedUnique_nodup _) t htm
    refine ⟨i, ?_, ?_⟩
    · rw [hfst]; exact h1
    · rw [hsnd, hfst]; exact h2

/-- Witness for C1 at the spec's concrete scenario
`create_vocab([["a","b"],["b","c"]])`. -/
theorem create_vocab_correct_witness :
    ("b" ∈ concatAll [["a", "b"], ["b", "c"]]) ∧
    ∃ i, (create_vocab [["a", "b"], ["b", "c"]]).1.lookup "b" = some i ∧
      (create_vocab [["a", "b"], ["b", "c"]]).2.lookup i = some "b" :=
  ⟨by decide,
   (create_vocab_correct [["a", "b"], ["b", "c"]]).2.2.2 "b" (by decide)⟩

/-- **C5**: `create_vocab` is deterministic up to the set of distinct
tokens: two corpora with the same distinct tokens (in particular the same
corpus with documents reordered or duplicated) get identical `token2id` and
`id2token` mappings. -/
theorem create_vocab_deterministic (c₁ c₂ : List (List String))
    (h : ∀ t, t ∈ concatAll c₁ ↔ t ∈ concatAll c₂) :
    create_vocab c₁ = create_vocab c₂ := by
  have hsu : sortedUnique (concatAll c₁) = sortedUnique (concatAll c₂) := by
    have hperm : List.Perm (concatAll c₁).dedup (concatAll c₂).dedup :=
      (List.perm_ext_iff_of_nodup (List.nodup_dedup _)
        (List.nodup_dedup _)).mpr
        (fun t => by rw [List.mem_dedup, List.mem_dedup]; exact h t)
    exact List.eq_of_perm_of_sorted
      (((List.perm_insertionSort _ _).trans hperm).trans
        (List.perm_insertionSort _ _).symm)
      (List.sorted_insertionSort _ _) (List.sorted_insertionSort _ _)
  rw [create_vocab_eq, create_vocab_eq, hsu]

/-- Witness for C5: a reordered, duplicated corpus with the same distinct
tokens yields the same vocabulary. -/
theorem create_vocab_deterministic_witness :
    create_vocab [["b", "a"]] = create_vocab [["a"], ["b", "b"]] :=
  create_vocab_deterministic [["b", "a"]] [["a"], ["b", "b"]]
    (by
      intro t
      show t ∈ ["b", "a"] ↔ t ∈ ["a", "b", "b"]
      simp [List.mem_cons]
      tauto)

/-- **C7**: `create_vocab` is total on well-formed input (it is a total
function by construction); on the empty collection it returns two empty
mappings, and empty token sequences are accepted and do not change the
result. -/
theorem create_vocab_total :
    create_vocab [] = ([], []) ∧
    ∀ corpus, create_vocab ([] :: corpus) = create_vocab corpus := by
  refine ⟨rfl, fun corpus => rfl⟩

/-! ## Tokenizer (`get_token_stream`)

The CPython modules `ast` and `tokenize` are external collaborators, not
code of this repository: `get_token_stream` is parametrised over an
abstract parser (`ast.parse`, which either builds a parse tree —
discarded, so modelled as `Unit` — or raises a `SyntaxError`) and an
abstract tokenizer (`tokenize.tokenize`, producing a stream of tokens
each carrying a type and its literal text). -/

/-- Token types of the CPython `tokenize`/`token` modules that
`utils.py` mentions, plus the retained categories. -/
inductive TokenType where
  | COMMENT
  | NEWLINE
  | NL
  | INDENT
  | DEDENT
  | ENCODING
  | STRING
  | NAME
  | NUMBER
  | OP
  | ENDMARKER
  deriving DecidableEq, Repr

/-- One token of the raw stream: its category and its literal text
(`token.type`, `token.string`). -/
structure Token where
  type : TokenType
  string : String
  deriving DecidableEq, Repr

/-- The `useless_token_type` set from `get_token_stream`. -/
def useless_token_type : List TokenType :=
  [TokenType.COMMENT, TokenType.NEWLINE, TokenType.NL, TokenType.INDENT,
   TokenType.DEDENT, TokenType.ENCODING, TokenType.STRING]

/--
`get_token_stream(code, language)` from `src/utils.py`:

```
assert language == "python", "Only support python for now"
useless_token_type = {COMMENT, NEWLINE, NL, INDENT, DEDENT, ENCODING, STRING}
parse_tree = ast.parse(code)
origin_tokens = tokenize.tokenize(BytesIO(code.encode("utf-8")).readline)
return [token.string for token in origin_tokens
        if token.type not in useless_token_type]
```

`ast_parse` stands for the external `ast.parse` and `tokenizeFn` for the
external `tokenize.tokenize` over the same code text.  The assert is
checked first; then the parse guard runs (its result is discarded); only
then is the token stream produced and filtered.
-/
def get_token_stream (ast_parse : String → Except PyError Unit)
    (tokenizeFn : String → List Token)
    (code : String) (language : String) : Except PyError (List String) :=
  if language = "python" then
    match ast_parse code with
    | Except.error e => Except.error e
    | Except.ok _ =>
        Except.ok
          (((tokenizeFn code).filter
              (fun token => ¬ token.type ∈ useless_token_type)).map
            (fun token => token.string))
  else
    Except.error (PyError.assertionError "Only support python for now")

/-- **C2**: whenever `get_token_stream` succeeds, every string in the
output is the literal text of some token of the raw stream whose
category is not discarded (so no comment text, string-literal content,
NEWLINE/NL, INDENT/DEDENT or ENCODING marker text ever appears), and
conversely every token of a retained category contributes its literal
text to the output. -/
theorem get_token_stream_filters (ast_parse : String → Except PyError Unit)
    (tokenizeFn : String → List Token) (code : String) (out : List String)
    (h : get_token_stream ast_parse tokenizeFn code "python"
          = Except.ok out) :
    (∀ s ∈ out, ∃ token ∈ tokenizeFn code,
        token.string = s ∧ ¬ token.type ∈ useless_token_type) ∧
    (∀ token ∈ tokenizeFn code,
        ¬ token.type ∈ useless_token_type → token.string ∈ out) := by
  have hout : out = ((tokenizeFn code).filter
      (fun token => ¬ token.type ∈ useless_token_type)).map
        (fun token => token.string) := by
    simp only [get_token_stream, if_pos rfl] at h
    cases hp : ast_parse code with
    | error e => rw [hp] at h; cases h
    | ok u => rw [hp] at h; cases h; rfl
  subst hout
  constructor
  · intro s hs
    obtain ⟨token, htk, hstr⟩ := List.mem_map.mp hs
    have hmem := List.mem_filter.mp htk
    refine ⟨token, hmem.1, hstr, ?_⟩
    simpa using hmem.2
  · intro token htk hkeep
    exact List.mem_map.mpr
      ⟨token, List.mem_filter.mpr ⟨htk, by simpa using hkeep⟩, rfl⟩

/-- Witness for C2: a stream with a comment, a string literal and layout
markers alongside retained tokens. -/
theorem get_token_stream_filters_witness :
    (get_token_stream (fun _ => Except.ok ())
        (fun _ => [⟨TokenType.ENCODING, "utf-8"⟩, ⟨TokenType.NAME, "x"⟩,
                   ⟨TokenType.COMMENT, "# hi"⟩, ⟨TokenType.STRING, "'s'"⟩,
                   ⟨TokenType.NEWLINE, "\n"⟩, ⟨TokenType.ENDMARKER, ""⟩])
        "x  # hi" "python" = Except.ok ["x", ""]) ∧
    ((∀ s ∈ ["x", ""],
        ∃ token ∈ [(⟨TokenType.ENCODING, "utf-8"⟩ : Token),
                   ⟨TokenType.NAME, "x"⟩, ⟨TokenType.COMMENT, "# hi"⟩,
                   ⟨TokenType.STRING, "'s'"⟩, ⟨TokenType.NEWLINE, "\n"⟩,
                   ⟨TokenType.ENDMARKER, ""⟩],
          token.string = s ∧ ¬ token.type ∈ useless_token_type) ∧
     (∀ token ∈ [(⟨TokenType.ENCODING, "utf-8"⟩ : Token),
                 ⟨TokenType.NAME, "x"⟩, ⟨TokenType.COMMENT, "# hi"⟩,
                 ⟨TokenType.STRING, "'s'"⟩, ⟨TokenType.NEWLINE, "\n"⟩,
                 ⟨TokenType.ENDMARKER, ""⟩],
        ¬ token.type ∈ useless_token_type → token.string ∈ ["x", ""])) :=
  ⟨rfl,
   get_token_stream_filters (fun _ => Except.ok ())
     (fun _ => [⟨TokenType.ENCODING, "utf-8"⟩, ⟨TokenType.NAME, "x"⟩,
                ⟨TokenType.COMMENT, "# hi"⟩, ⟨TokenType.STRING, "'s'"⟩,
                ⟨TokenType.NEWLINE, "\n"⟩, ⟨TokenType.ENDMARKER, ""⟩])
     "x  # hi" ["x", ""] rfl⟩

/-- **C3**: when the parse guard fails — the code is not valid Python —
`get_token_stream` with language `"python"` propagates the syntax error
and returns no token list, whatever the tokenizer would have produced:
the parse structure is constructed before any tokenization. -/
theorem get_token_stream_syntax_error (ast_parse : String → Except PyError Unit)
    (tokenizeFn : String → List Token) (code : String) (e : PyError)
    (h : ast_parse code = Except.error e) :
    get_token_stream ast_parse tokenizeFn code "python" = Except.error e := by
  simp [get_token_stream, h]

/-- Witness for C3: a parser that rejects the input makes the call fail
with that syntax error. -/
theorem get_token_stream_syntax_error_witness :
    ((fun _ : String => Except.error (α := Unit)
        (PyError.syntaxError "invalid syntax")) "def f(" = Except.error
        (PyError.syntaxError "invalid syntax")) ∧
    get_token_stream
        (fun _ => Except.error (PyError.syntaxError "invalid syntax"))
        (fun _ => []) "def f(" "python"
      = Except.error (PyError.syntaxError "invalid syntax") :=
  ⟨rfl,
   get_token_stream_syntax_error
     (fun _ => Except.error (PyError.syntaxError "invalid syntax"))
     (fun _ => []) "def f(" (PyError.syntaxError "invalid syntax") rfl⟩

/-- **C4**: for any language other than `"python"`, `get_token_stream`
fails immediately with the assertion error, regardless of the code and
before any parsing or tokenization (the result does not depend on
`ast_parse` or `tokenizeFn`). -/
theorem get_token_stream_language_guard
    (ast_parse : String → Except PyError Unit)
    (tokenizeFn : String → List Token) (code : String) (language : String)
    (h : language ≠ "python") :
    get_token_stream ast_parse tokenizeFn code language
      = Except.error (PyError.assertionError "Only support python for now") := by
  simp only [get_token_stream, if_neg h]

/-- Witness for C4 at language `"java"`. -/
theorem get_token_stream_language_guard_witness :
    ("java" ≠ "python") ∧
    get_token_stream (fun _ => Except.ok ()) (fun _ => []) "class A {}" "java"
      = Except.error (PyError.assertionError "Only support python for now") :=
  ⟨by decide,
   get_token_stream_language_guard (fun _ => Except.ok ()) (fun _ => [])
     "class A {}" "java" (by decide)⟩

/-- **C6**: whenever `get_token_stream` succeeds, the output is a
sublist of the raw token texts in stream order: filtering removes tokens
but never reorders the remaining ones. -/
theorem get_token_stream_order (ast_parse : String → Except PyError Unit)
    (tokenizeFn : String → List Token) (code : String) (out : List String)
    (h : get_token_stream ast_parse tokenizeFn code "python"
          = Except.ok out) :
    out.Sublist ((tokenizeFn code).map (fun token => token.string)) := by
  have hout : out = ((tokenizeFn code).filter
      (fun token => ¬ token.type ∈ useless_token_type)).map
        (fun token => token.string) := by
    simp only [get_token_stream, if_pos rfl] at h
    cases hp : ast_parse code with
    | error e => rw [hp] at h; cases h
    | ok u => rw [hp] at h; cases h; rfl
  subst hout
  exact (List.filter_sublist _).map _

/-- Witness for C6: on a small concrete stream the output is a sublist
of the raw token texts. -/
theorem get_token_stream_order_witness :
    (get_token_stream (fun _ => Except.ok ())
        (fun _ => [⟨TokenType.ENCODING, "utf-8"⟩, ⟨TokenType.NAME, "a"⟩,
                   ⟨TokenType.NEWLINE, "\n"⟩, ⟨TokenType.NAME, "b"⟩,
                   ⟨TokenType.ENDMARKER, ""⟩])
        "a\nb" "python" = Except.ok ["a", "b", ""]) ∧
    List.Sublist ["a", "b", ""]
      (List.map (fun token => token.string)
        ((fun _ : String =>
            [(⟨TokenType.ENCODING, "utf-8"⟩ : Token), ⟨TokenType.NAME, "a"⟩,
             ⟨TokenType.NEWLINE, "\n"⟩, ⟨TokenType.NAME, "b"⟩,
             ⟨TokenType.ENDMARKER, ""⟩]) "a\nb")) :=
  ⟨rfl,
   get_token_stream_order (fun _ => Except.ok ())
     (fun _ => [⟨TokenType.ENCODING, "utf-8"⟩, ⟨TokenType.NAME, "a"⟩,
                ⟨TokenType.NEWLINE, "\n"⟩, ⟨TokenType.NAME, "b"⟩,
                ⟨TokenType.ENDMARKER, ""⟩])
     "a\nb" ["a", "b", ""] rfl⟩

/-- Modelled from the spec: the external CPython `ast.parse` succeeds on
the valid scenario input `"def f(x):\n    return x"` (the parse tree
itself is discarded by the code, so it is `Unit`). -/
def parse_def_f : String → Except PyError Unit :=
  fun _ => Except.ok ()

/-- Modelled from the spec: the raw token stream the external CPython
`tokenize.tokenize` emits for `"def f(x):\n    return x"` — the
scenario's retained tokens `def f ( x ) : return x` plus the
ENCODING/NEWLINE/INDENT/DEDENT layout markers the spec says are
excluded, and the final end-marker with empty text. -/
def tokenize_def_f : String → List Token :=
  fun _ =>
    [⟨TokenType.ENCODING, "utf-8"⟩,
     ⟨TokenType.NAME, "def"⟩, ⟨TokenType.NAME, "f"⟩,
     ⟨TokenType.OP, "("⟩, ⟨TokenType.NAME, "x"⟩, ⟨TokenType.OP, ")"⟩,
     ⟨TokenType.OP, ":"⟩, ⟨TokenType.NEWLINE, "\n"⟩,
     ⟨TokenType.INDENT, "    "⟩,
     ⟨TokenType.NAME, "return"⟩, ⟨TokenType.NAME, "x"⟩,
     ⟨TokenType.NEWLINE, ""⟩, ⟨TokenType.DEDENT, ""⟩,
     ⟨TokenType.ENDMARKER, ""⟩]

/-- **C8**: on the concrete scenario input `"def f(x):\n    return x"`
(with language `"python"`), `get_token_stream` succeeds and returns
exactly `["def", "f", "(", "x", ")", ":", "return", "x", ""]`, the final
empty string being the end-marker, with all
NEWLINE/INDENT/DEDENT/ENCODING tokens excluded. -/
theorem get_token_stream_scenario :
    get_token_stream parse_def_f tokenize_def_f
        "def f(x):\n    return x" "python"
      = Except.ok ["def", "f", "(", "x", ")", ":", "return", "x", ""] := by
  rfl

/-- **C10**: whenever the raw token stream ends with the end-marker
token (category ENDMARKER, literal text the empty string — which the
external tokenizer always emits last) and `get_token_stream` succeeds,
the returned list is non-empty and its last element is the empty
string: ENDMARKER is not a discarded category, so the end-marker
survives the filter as the final element. -/
theorem get_token_stream_endmarker (ast_parse : String → Except PyError Unit)
    (tokenizeFn : String → List Token) (code : String) (out : List String)
    (ts : List Token)
    (htok : tokenizeFn code = ts ++ [⟨TokenType.ENDMARKER, ""⟩])
    (h : get_token_stream ast_parse tokenizeFn code "python"
          = Except.ok out) :
    out ≠ [] ∧ out.getLast? = some "" := by
  have hout : out = ((tokenizeFn code).filter
      (fun token => ¬ token.type ∈ useless_token_type)).map
        (fun token => token.string) := by
    simp only [get_token_stream, if_pos rfl] at h
    cases hp : ast_parse code with
    | error e => rw [hp] at h; cases h
    | ok u => rw [hp] at h; cases h; rfl
  subst hout
  rw [htok, List.filter_append, List.map_append]
  have hfl : List.filter
      (fun token => decide (¬ token.type ∈ useless_token_type))
      [(⟨TokenType.ENDMARKER, ""⟩ : Token)]
        = [⟨TokenType.ENDMARKER, ""⟩] := by decide
  rw [hfl]
  constructor
  · simp
  · rw [List.getLast?_append]
    rfl

/-- Witness for C10 on the scenario token stream. -/
theorem get_token_stream_endmarker_witness :
    (tokenize_def_f "def f(x):\n    return x"
        = [⟨TokenType.ENCODING, "utf-8"⟩,
           ⟨TokenType.NAME, "def"⟩, ⟨TokenType.NAME, "f"⟩,
           ⟨TokenType.OP, "("⟩, ⟨TokenType.NAME, "x"⟩, ⟨TokenType.OP, ")"⟩,
           ⟨TokenType.OP, ":"⟩, ⟨TokenType.NEWLINE, "\n"⟩,
           ⟨TokenType.INDENT, "    "⟩,
           ⟨TokenType.NAME, "return"⟩, ⟨TokenType.NAME, "x"⟩,
           ⟨TokenType.NEWLINE, ""⟩, ⟨TokenType.DEDENT, ""⟩]
          ++ [⟨TokenType.ENDMARKER, ""⟩]) ∧
    (["def", "f", "(", "x", ")", ":", "return", "x", ""] ≠ ([] : List String) ∧
     (["def", "f", "(", "x", ")", ":", "return", "x", ""] : List String).getLast?
        = some "") :=
  ⟨rfl,
   get_token_stream_endmarker parse_def_f tokenize_def_f
     "def f(x):\n    return x"
     ["def", "f", "(", "x", ")", ":", "return", "x", ""]
     [⟨TokenType.ENCODING, "utf-8"⟩,
      ⟨TokenType.NAME, "def"⟩, ⟨TokenType.NAME, "f"⟩,
      ⟨TokenType.OP, "("⟩, ⟨TokenType.NAME, "x"⟩, ⟨TokenType.OP, ")"⟩,
      ⟨TokenType.OP, ":"⟩, ⟨TokenType.NEWLINE, "\n"⟩,
      ⟨TokenType.INDENT, "    "⟩,
      ⟨TokenType.NAME, "return"⟩, ⟨TokenType.NAME, "x"⟩,
      ⟨TokenType.NEWLINE, ""⟩, ⟨TokenType.DEDENT, ""⟩]
     rfl rfl⟩

/-! ## Corpus loader (`get_code`)

The `datasets.load_dataset` collaborator is external: it is modelled as
a parameter mapping a dataset name and a language to either an error or
a dataset, a dataset being a partial map from partition names to lists
of records.  Indexing a missing partition in Python raises a
`KeyError`. -/

/-- One dataset record: the designated text field `whole_func_string`
plus the other columns of the record (present but never read). -/
structure Record where
  whole_func_string : String
  other_fields : List (String × String)
  deriving DecidableEq, Repr

/-- A loaded dataset: partition name → records of that split, if the
split exists. -/
def Dataset : Type := String → Option (List Record)

/--
`get_code(partition, language)` from `src/utils.py`:

```
raw_datasets = load_dataset("code_search_net", language)
return raw_datasets[partition]["whole_func_string"]
```

`load_dataset` stands for the external `datasets.load_dataset`; a
failure there (dataset or language unavailable) propagates unchanged,
and indexing a partition the dataset does not have raises a `KeyError`.
Column selection returns the field values of the records in native
order.
-/
def get_code (load_dataset : String → String → Except PyError Dataset)
    (partition : String) (language : String) : Except PyError (List String) :=
  match load_dataset "code_search_net" language with
  | Except.error e => Except.error e
  | Except.ok raw_datasets =>
      match raw_datasets partition with
      | none => Except.error (PyError.keyError partition)
      | some records =>
          Except.ok (records.map (fun r => r.whole_func_string))

/-- **C9**: when the external dataset source yields a split for the
requested partition and language, `get_code` returns exactly the
`whole_func_string` field of every record of that split, in the
dataset's native record order, with length equal to the number of
records; any failure to locate the dataset, partition, or language
propagates to the caller: a loaded dataset without the requested
partition raises the `KeyError` for that partition, and a failure of
the external load itself propagates unchanged. -/
theorem get_code_spec (load_dataset : String → String → Except PyError Dataset)
    (partition : String) (language : String) :
    (∀ raw_datasets records,
        load_dataset "code_search_net" language = Except.ok raw_datasets →
        raw_datasets partition = some records →
        get_code load_dataset partition language
            = Except.ok (records.map (fun r => r.whole_func_string)) ∧
          (records.map (fun r => r.whole_func_string)).length
            = records.length) ∧
    (∀ raw_datasets,
        load_dataset "code_search_net" language = Except.ok raw_datasets →
        raw_datasets partition = none →
        get_code load_dataset partition language
            = Except.error (PyError.keyError partition)) ∧
    (∀ e, load_dataset "code_search_net" language = Except.error e →
        get_code load_dataset partition language = Except.error e) := by
  refine ⟨?_, ?_, ?_⟩
  · intro raw_datasets records hload hpart
    constructor
    · simp [get_code, hload, hpart]
    · exact List.length_map _ _
  · intro raw_datasets hload hpart
    simp [get_code, hload, hpart]
  · intro e hload
    simp [get_code, hload]

/-- A concrete two-record split, used to exercise `get_code`. -/
def sample_records : List Record :=
  [⟨"def a(): pass", [("func_name", "a")]⟩,
   ⟨"def b(): pass", [("func_name", "b")]⟩]

/-- A concrete dataset with a single `"train"` split. -/
def sample_dataset : Dataset :=
  fun p => if p = "train" then some sample_records else none

/-- A concrete external dataset source that always yields
`sample_dataset`. -/
def sample_load : String → String → Except PyError Dataset :=
  fun _ _ => Except.ok sample_dataset

/-- Witness for C9 on a two-record dataset: the `"train"` split is
projected in order, and the absent `"test"` split raises its
`KeyError`. -/
theorem get_code_spec_witness :
    (sample_load "code_search_net" "python" = Except.ok sample_dataset ∧
     sample_dataset "train" = some sample_records ∧
     sample_dataset "test" = none) ∧
    (get_code sample_load "train" "python"
        = Except.ok (sample_records.map (fun r => r.whole_func_string)) ∧
     (sample_records.map (fun r => r.whole_func_string)).length
        = sample_records.length) ∧
    get_code sample_load "test" "python"
        = Except.error (PyError.keyError "test") :=
  ⟨⟨rfl, rfl, rfl⟩,
   (get_code_spec sample_load "train" "python").1
     sample_dataset sample_records rfl rfl,
   (get_code_spec sample_load "test" "python").2.1
     sample_dataset rfl rfl⟩

end Ml4Code
